import Mathlib

/-!
Verification development for the UiAuto workflow-automation server.

The definitions below are a shallow embedding of the orchestration core:
* `WorkflowExecutor.execute` and its step dispatchers
  (src/server/lib/workflow-executor.ts),
* `CustomLLMClient.createChatCompletion` (src/server/lib/custom-llm-client.ts),
* `MemStorage.updateExecution` and the execute route
  (storage and routes modules).

Modelling conventions:
* JavaScript runtime values are `JSVal`; numbers are modelled as exact
  integers / rationals (the code only ever adds token counts and rates).
* The external browser-automation capability (Stagehand), the network, the
  token provisioner and the wall clock are oracles bundled in environment
  records (`StepEnv`, `GatewayEnv`); each awaited external call consumes
  one oracle answer.
* The executor mutates an append-only `logs` array and emits socket events;
  we model each phase by the list of items it appends (state-to-writer
  transformation), and the full run by concatenation in program order.
* Log timestamps come from the wall clock and are never inspected by the
  program, so `LogEntry` omits them.
-/

namespace UiAuto

/-- JavaScript runtime values, as far as the executor manipulates them. -/
inductive JSVal where
  | null
  | undefined
  | boolean (b : Bool)
  | num (n : Int)
  | str (s : String)
  | arr (elems : List JSVal)
  | obj (fields : List (String × JSVal))
deriving Repr, Inhabited

/-- JavaScript truthiness: `null`, `undefined`, `false`, `0` and the empty
string are falsy; arrays and objects are always truthy. -/
def JSVal.truthy : JSVal → Bool
  | .null => false
  | .undefined => false
  | .boolean b => b
  | .num n => n != 0
  | .str s => !(s == "")
  | .arr _ => true
  | .obj _ => true

/-- JavaScript `a || b`: the right operand when the left is falsy. -/
def jsOr (a b : JSVal) : JSVal := if a.truthy then a else b

mutual

/-- String coercion of a JSVal as used in template literals.  Arrays join
their elements with commas, rendering `null` and `undefined` elements as
the empty string, exactly as JavaScript `String(value)` does. -/
def JSVal.display : JSVal → String
  | .null => "null"
  | .undefined => "undefined"
  | .boolean b => if b then "true" else "false"
  | .num n => toString n
  | .str s => s
  | .arr elems => JSVal.displayList elems
  | .obj _ => "[object Object]"

/-- Comma-joined rendering of array elements (JS `Array.prototype.toString`). -/
def JSVal.displayList : List JSVal → String
  | [] => ""
  | x :: xs =>
    let s := match x with
      | JSVal.null => ""
      | JSVal.undefined => ""
      | v => JSVal.display v
    match xs with
    | [] => s
    | _ :: _ => s ++ "," ++ JSVal.displayList xs

end

/-- Optional-chained property access `v?.k`: `undefined` on non-objects and
missing keys. -/
def JSVal.getProp : JSVal → String → JSVal
  | .obj fields, k => ((fields.lookup k).getD JSVal.undefined)
  | _, _ => JSVal.undefined

/-- Optional-chained index access `v?.[i]`. -/
def JSVal.index : JSVal → Nat → JSVal
  | .arr elems, i => elems.getD i JSVal.undefined
  | _, _ => JSVal.undefined

/-- Property access on a free-form configuration map (`step.config.url`). -/
def propOf (cfg : List (String × JSVal)) (k : String) : JSVal :=
  (cfg.lookup k).getD JSVal.undefined

/-- A structured log entry (shared/schema.ts `executionLogSchema`); the
timestamp field is taken from the wall clock and never read back, so it is
omitted from the model. -/
structure LogEntry where
  level : String
  category : String
  message : String
deriving Repr, DecidableEq, Inhabited

/-- One automation step (shared/schema.ts `workflowStepSchema`). -/
structure AutomationStep where
  id : String
  type : String
  description : String
  config : List (String × JSVal)
  order : Nat
deriving Repr, Inhabited

/-- A workflow (shared/schema.ts `workflowSchema`); browser configuration
only parameterizes the external session and is folded into the environment
oracle. -/
structure Workflow where
  id : String
  name : String
  steps : List AutomationStep
  executionMode : String
deriving Repr, Inhabited

/-- Normalized usage block of a gateway response
(custom-llm-client.ts lines 155-159). -/
structure Usage where
  prompt_tokens : Int
  completion_tokens : Int
  total_tokens : Int
deriving Repr, DecidableEq, Inhabited

/-- The executor's running token/cost totals (workflow-executor.ts
lines 20-25).  Costs are exact rationals standing for the JS float
arithmetic. -/
structure TokenUsage where
  promptTokens : Int
  completionTokens : Int
  totalTokens : Int
  estimatedCost : ℚ
deriving Repr, DecidableEq, Inhabited

/-- Initial totals (all zero). -/
def TokenUsage.init : TokenUsage := ⟨0, 0, 0, 0⟩

/-- One usage-tracking update from the executor's llmClient callback
(workflow-executor.ts lines 93-101): add the three reported counters and
add `(p/1000)*0.03 + (c/1000)*0.06` to the estimated cost.  The formatted
response always carries a usage object, so the `if (response.usage)` guard
is always taken. -/
def trackUsage (t : TokenUsage) (u : Usage) : TokenUsage :=
  { promptTokens := t.promptTokens + u.prompt_tokens
    completionTokens := t.completionTokens + u.completion_tokens
    totalTokens := t.totalTokens + u.total_tokens
    estimatedCost := t.estimatedCost +
      (((u.prompt_tokens : ℚ) / 1000) * (3 / 100) +
        ((u.completion_tokens : ℚ) / 1000) * (6 / 100)) }

/-- Reading of one raw usage field: `raw || 0` followed by numeric use.
The gateway wire contract (§6) makes these fields numbers when present. -/
def countOf (v : JSVal) : Int :=
  match jsOr v (JSVal.num 0) with
  | .num n => n
  | _ => 0

/-- Usage normalization from the parsed upstream body
(custom-llm-client.ts lines 155-159): each field is
`data?.usage?.<field> || 0`. -/
def usageOfData (data : JSVal) : Usage :=
  { prompt_tokens := countOf ((data.getProp "usage").getProp "prompt_tokens")
    completion_tokens := countOf ((data.getProp "usage").getProp "completion_tokens")
    total_tokens := countOf ((data.getProp "usage").getProp "total_tokens") }

/-! ## The workflow executor (src/server/lib/workflow-executor.ts)

Each phase is modelled by the list of items it appends to the executor's
append-only log/event stream, plus its outcome.  A thrown JS exception is
an `Except.error` carrying the error message. -/

/-- One item of the executor's observable output stream: a log entry
(`addLog`, which both stores the entry and broadcasts it) or a progress
event (`io.emit("execution:progress", ...)`). -/
inductive TraceItem where
  | log (entry : LogEntry)
  | progress (executionId : String) (currentStep totalSteps : Nat)
      (stepDescription : String)
deriving Repr, Inhabited

/-- The log entries of a trace, in emission order. -/
def logsOfTrace (tr : List TraceItem) : List LogEntry :=
  tr.filterMap fun item =>
    match item with
    | .log e => some e
    | _ => none

/-- Oracle for everything external to one `execute` run: the Stagehand
session, the page, timers and the wall clock.  Each awaited external call
reads one field.  `schedule` is the event-loop interleaving of the log
streams of concurrently running steps in parallel mode; `gatewayUsages`
are the normalized usage blocks of the gateway responses received during
the run (the llmClient callback folds them into the running totals). -/
structure StepEnv where
  initOutcome : Except String Unit
  stepCall : AutomationStep → Except String JSVal
  parseSchema : String → Except String JSVal
  closeOutcome : Except String Unit
  schedule : List (List LogEntry) → List LogEntry
  gatewayUsages : List Usage
  elapsed : Nat
  now : Nat

/-- `executeNavigate` (lines 178-183): `config.url || ""`, goto, returns
`undefined` (a `Promise<void>`). -/
def executeNavigate (env : StepEnv) (step : AutomationStep) :
    List LogEntry × Except String JSVal :=
  let url := (jsOr (propOf step.config "url") (JSVal.str "")).display
  let hd : LogEntry := ⟨"info", "navigation", s!"Navigating to {url}"⟩
  match env.stepCall step with
  | .ok _ =>
    ([hd, ⟨"success", "navigation", s!"Successfully navigated to {url}"⟩],
      .ok JSVal.undefined)
  | .error e => ([hd], .error e)

/-- `executeAct` (lines 185-193): `config.action || description`, returns
the Stagehand result. -/
def executeAct (env : StepEnv) (step : AutomationStep) :
    List LogEntry × Except String JSVal :=
  let action := (jsOr (propOf step.config "action") (JSVal.str step.description)).display
  let hd : LogEntry := ⟨"info", "act", s!"Performing action: {action}"⟩
  match env.stepCall step with
  | .ok v => ([hd, ⟨"success", "act", s!"Action completed: {action}"⟩], .ok v)
  | .error e => ([hd], .error e)

/-- `executeExtract` (lines 195-215): `config.instruction || description`;
a string-valued schema is first decoded with `JSON.parse` (whose failure
propagates as the step failure); returns the extracted data. -/
def executeExtract (env : StepEnv) (step : AutomationStep) :
    List LogEntry × Except String JSVal :=
  let instruction :=
    (jsOr (propOf step.config "instruction") (JSVal.str step.description)).display
  let schema := propOf step.config "schema"
  let hd : LogEntry := ⟨"info", "extract", s!"Extracting data: {instruction}"⟩
  let parsed : Except String Unit :=
    if schema.truthy then
      match schema with
      | .str s =>
        match env.parseSchema s with
        | .ok _ => .ok ()
        | .error e => .error e
      | _ => .ok ()
    else .ok ()
  match parsed with
  | .error e => ([hd], .error e)
  | .ok _ =>
    match env.stepCall step with
    | .ok v => ([hd, ⟨"success", "extract", "Data extracted successfully"⟩], .ok v)
    | .error e => ([hd], .error e)

/-- `executeObserve` (lines 217-225). -/
def executeObserve (env : StepEnv) (step : AutomationStep) :
    List LogEntry × Except String JSVal :=
  let instruction :=
    (jsOr (propOf step.config "instruction") (JSVal.str step.description)).display
  let hd : LogEntry := ⟨"info", "observe", s!"Observing: {instruction}"⟩
  match env.stepCall step with
  | .ok v => ([hd, ⟨"success", "observe", "Observation completed"⟩], .ok v)
  | .error e => ([hd], .error e)

/-- `executeAgent` (lines 227-236). -/
def executeAgent (env : StepEnv) (step : AutomationStep) :
    List LogEntry × Except String JSVal :=
  let instruction :=
    (jsOr (propOf step.config "instruction") (JSVal.str step.description)).display
  let hd : LogEntry := ⟨"info", "agent", s!"Starting autonomous agent: {instruction}"⟩
  match env.stepCall step with
  | .ok v => ([hd, ⟨"success", "agent", "Agent completed successfully"⟩], .ok v)
  | .error e => ([hd], .error e)

/-- `executeWait` (lines 238-251): with a truthy selector, awaits the
selector (which may time out and throw); otherwise a fixed-duration timer
that always succeeds.  Returns `undefined` (a `Promise<void>`). -/
def executeWait (env : StepEnv) (step : AutomationStep) :
    List LogEntry × Except String JSVal :=
  let duration := jsOr (propOf step.config "duration") (JSVal.num 1000)
  let selector := propOf step.config "selector"
  if selector.truthy then
    let sel := selector.display
    match env.stepCall step with
    | .ok _ =>
      ([⟨"info", "wait", s!"Waiting for element: {sel}"⟩,
        ⟨"success", "wait", s!"Element found: {sel}"⟩], .ok JSVal.undefined)
    | .error e => ([⟨"info", "wait", s!"Waiting for element: {sel}"⟩], .error e)
  else
    ([⟨"info", "wait", s!"Waiting for {duration.display}ms"⟩,
      ⟨"success", "wait", "Wait completed"⟩], .ok JSVal.undefined)

/-- `executeScreenshot` (lines 253-264): `config.path` or a
timestamp-derived default; returns the path. -/
def executeScreenshot (env : StepEnv) (step : AutomationStep) :
    List LogEntry × Except String JSVal :=
  let path := jsOr (propOf step.config "path")
    (JSVal.str s!"screenshot-{env.now}.png")
  let hd : LogEntry := ⟨"info", "screenshot", s!"Taking screenshot: {path.display}"⟩
  match env.stepCall step with
  | .ok _ =>
    ([hd, ⟨"success", "screenshot", s!"Screenshot saved: {path.display}"⟩], .ok path)
  | .error e => ([hd], .error e)

/-- `executeScroll` (lines 266-281): `config.direction || "down"`,
`config.amount || 500`; returns `undefined` (a `Promise<void>`). -/
def executeScroll (env : StepEnv) (step : AutomationStep) :
    List LogEntry × Except String JSVal :=
  let direction := (jsOr (propOf step.config "direction") (JSVal.str "down")).display
  let amount := (jsOr (propOf step.config "amount") (JSVal.num 500)).display
  let hd : LogEntry := ⟨"info", "scroll", s!"Scrolling {direction} by {amount}px"⟩
  match env.stepCall step with
  | .ok _ => ([hd, ⟨"success", "scroll", "Scroll completed"⟩], .ok JSVal.undefined)
  | .error e => ([hd], .error e)

/-- The `switch (step.type)` of `executeStep` (lines 141-168): the local
`result` starts as `null` and an unknown type only logs a warning, leaving
it `null`. -/
def dispatchStep (env : StepEnv) (step : AutomationStep) :
    List LogEntry × Except String JSVal :=
  match step.type with
  | "navigate" => executeNavigate env step
  | "act" => executeAct env step
  | "extract" => executeExtract env step
  | "observe" => executeObserve env step
  | "agent" => executeAgent env step
  | "wait" => executeWait env step
  | "screenshot" => executeScreenshot env step
  | "scroll" => executeScroll env step
  | other => ([⟨"warning", "step", s!"Unknown step type: {other}"⟩], .ok JSVal.null)

/-- The announcement log of `executeStep` (line 136). -/
def stepStartLog (step : AutomationStep) : LogEntry :=
  ⟨"info", "step", s!"Executing step {step.order + 1}: {step.type} - {step.description}"⟩

/-- The success log of `executeStep` (line 170). -/
def stepSuccessLog (step : AutomationStep) : LogEntry :=
  ⟨"success", "step", s!"Step {step.order + 1} completed successfully"⟩

/-- The failure log of `executeStep` (line 173). -/
def stepFailureLog (step : AutomationStep) (e : String) : LogEntry :=
  ⟨"error", "step", s!"Step {step.order + 1} failed: {e}"⟩

/-- `executeStep` (lines 131-176): guard on the session handle, an
announcement log, the dispatch, then a success log (returning the result)
or an error log (rethrowing). -/
def executeStep (env : StepEnv) (hasStagehand : Bool) (step : AutomationStep) :
    List LogEntry × Except String JSVal :=
  if !hasStagehand then ([], .error "Stagehand not initialized")
  else
    let d := dispatchStep env step
    match d.2 with
    | .ok v => (stepStartLog step :: d.1 ++ [stepSuccessLog step], .ok v)
    | .error e => (stepStartLog step :: d.1 ++ [stepFailureLog step e], .error e)

/-- Outcome of one step dispatched against a live session. -/
def stepOutcome (env : StepEnv) (step : AutomationStep) : Except String JSVal :=
  (executeStep env true step).2

/-- Whether a step's dispatch succeeds (does not throw). -/
def stepOk (env : StepEnv) (step : AutomationStep) : Bool :=
  match stepOutcome env step with
  | .ok _ => true
  | .error _ => false

/-- Whether a step's dispatch succeeds with a truthy value — exactly the
condition under which it contributes a results entry. -/
def stepTruthy (env : StepEnv) (step : AutomationStep) : Bool :=
  match stepOutcome env step with
  | .ok v => v.truthy
  | .error _ => false

/-- The message of a thrown step failure (junk on success). -/
def errMsg : Except String JSVal → String
  | .error e => e
  | .ok _ => ""

/-- An entry of the executor's `results` array: `{ step: step.id, result }`
(lines 316 and 327). -/
structure ResultEntry where
  step : String
  result : JSVal
deriving Repr, Inhabited

/-- The JS object literal a result entry denotes. -/
def entryToJS (e : ResultEntry) : JSVal :=
  JSVal.obj [("step", JSVal.str e.step), ("result", e.result)]

/-- Final unwrapping `results.length === 1 ? results[0].result : results`
(line 347). -/
def aggregateResults (entries : List ResultEntry) : JSVal :=
  match entries with
  | [e] => e.result
  | _ => JSVal.arr (entries.map entryToJS)

/-- The sequential loop (lines 300-318): per step, a progress event, then
the step; a truthy result is appended to `results`; a thrown step failure
propagates, aborting the loop. -/
def runSequential (env : StepEnv) (executionId : String) (totalSteps : Nat) :
    List AutomationStep → Nat → List TraceItem × Except String (List ResultEntry)
  | [], _ => ([], .ok [])
  | step :: rest, i =>
    let pr := TraceItem.progress executionId i totalSteps step.description
    let s := executeStep env true step
    match s.2 with
    | .error e => (pr :: s.1.map TraceItem.log, .error e)
    | .ok v =>
      let tail := runSequential env executionId totalSteps rest (i + 1)
      (pr :: s.1.map TraceItem.log ++ tail.1,
        match tail.2 with
        | .ok entries => .ok ((if v.truthy then [ResultEntry.mk step.id v] else []) ++ entries)
        | .error e => .error e)

/-- The error log a rejected parallel step produces in the `forEach`
(line 329); `i` is the step's array index. -/
def parallelFailLog (i : Nat) (e : String) : LogEntry :=
  ⟨"error", "execution", s!"Parallel step {i + 1} failed: {e}"⟩

/-- The `forEach` over `Promise.allSettled` outcomes (lines 325-331): in
original index order, a fulfilled truthy value contributes an entry and a
rejection contributes an error log. -/
def settleResults : List (AutomationStep × Except String JSVal) → Nat →
    List LogEntry × List ResultEntry
  | [], _ => ([], [])
  | (step, out) :: rest, i =>
    let tail := settleResults rest (i + 1)
    match out with
    | .ok v =>
      (tail.1, (if v.truthy then [ResultEntry.mk step.id v] else []) ++ tail.2)
    | .error e => (parallelFailLog i e :: tail.1, tail.2)

/-- The parallel branch (lines 319-332): an announcement log, all steps
launched concurrently (their log streams interleave under the event-loop
schedule), then the settled outcomes — each step paired with its own
dispatch outcome — folded in original step order.  `Promise.allSettled`
never rejects, so this branch never throws. -/
def runParallel (env : StepEnv) (steps : List AutomationStep) :
    List TraceItem × List ResultEntry :=
  let settled := steps.map fun s => executeStep env true s
  let mid := env.schedule (settled.map Prod.fst)
  let post := settleResults (steps.map fun s => (s, (executeStep env true s).2)) 0
  (TraceItem.log ⟨"info", "execution", "Executing steps in parallel"⟩ ::
      mid.map TraceItem.log ++ post.1.map TraceItem.log,
    post.2)

/-- `initStagehand` (lines 64-129).  The session handle is assigned
(line 77) before `stagehand.init()` is awaited (line 111), so the handle
exists even when initialization fails; the Boolean in the result records
that. -/
def initStagehand (env : StepEnv) : List LogEntry × Bool × Except String Unit :=
  let hd : LogEntry := ⟨"info", "initialization", "Initializing browser automation..."⟩
  match env.initOutcome with
  | .ok _ =>
    ([hd, ⟨"success", "initialization", "Browser automation initialized successfully"⟩],
      true, .ok ())
  | .error e =>
    ([hd, ⟨"error", "initialization", s!"Failed to initialize: {e}"⟩], true, .error e)

/-- `cleanup` (lines 369-380): if the handle exists, one `close()` call;
a close failure is caught and only logged as a warning.  The second
component counts `close()` invocations. -/
def cleanup (env : StepEnv) (hasStagehand : Bool) : List LogEntry × Nat :=
  if hasStagehand then
    match env.closeOutcome with
    | .ok _ =>
      ([⟨"info", "cleanup", "Closing browser instance"⟩,
        ⟨"success", "cleanup", "Browser closed successfully"⟩], 1)
    | .error e =>
      ([⟨"info", "cleanup", "Closing browser instance"⟩,
        ⟨"warning", "cleanup", s!"Browser cleanup warning: {e}"⟩], 1)
  else ([], 0)

/-- Rendering of `(duration / 1000).toFixed(2)` in the completion log. -/
def fmtSeconds (ms : Nat) : String :=
  let centis := (ms + 5) / 10
  let frac := centis % 100
  let pad := if frac < 10 then "0" else ""
  s!"{centis / 100}.{pad}{frac}"

/-- The log `execute` starts with (line 290). -/
def startLog (name : String) : LogEntry :=
  ⟨"info", "execution", s!"Starting workflow: {name}"⟩

/-- The catch-block log of `execute` (line 354). -/
def workflowFailedLog (e : String) : LogEntry :=
  ⟨"error", "execution", s!"Workflow failed: {e}"⟩

/-- The completion log of `execute` (line 344). -/
def workflowCompletedLog (ms : Nat) : LogEntry :=
  ⟨"success", "execution", s!"Workflow completed in {fmtSeconds ms}s"⟩

/-- The record `execute` resolves with on every path (lines 346-351 and
357-362): `{results, logs, duration, tokenUsage}`. -/
structure ExecResult where
  results : JSVal
  logs : List LogEntry
  duration : Nat
  tokenUsage : TokenUsage
deriving Repr, Inhabited

/-- An `execute` run's full observable outcome: the resolved record, the
emitted trace and how many times the session handle was closed. -/
structure ExecOutcome where
  result : ExecResult
  trace : List TraceItem
  closes : Nat
deriving Repr, Inhabited

/-- The body of the `try` in `execute` (lines 293-351): initialization,
the chosen concurrency mode, the final progress event and completion log.
Its error is the exception reaching the `catch`. -/
def executeBody (env : StepEnv) (executionId : String) (wf : Workflow) :
    List TraceItem × Bool × Except String (List ResultEntry) :=
  let ini := initStagehand env
  match ini.2.2 with
  | .error e => (ini.1.map TraceItem.log, ini.2.1, .error e)
  | .ok _ =>
    let totalSteps := wf.steps.length
    let body :=
      if wf.executionMode = "sequential" then
        runSequential env executionId totalSteps wf.steps 0
      else if wf.executionMode = "parallel" then
        let p := runParallel env wf.steps
        (p.1, .ok p.2)
      else ([], .ok [])
    match body.2 with
    | .error e => (ini.1.map TraceItem.log ++ body.1, ini.2.1, .error e)
    | .ok entries =>
      (ini.1.map TraceItem.log ++ body.1 ++
          [TraceItem.progress executionId totalSteps totalSteps "Completed",
            TraceItem.log (workflowCompletedLog env.elapsed)],
        ini.2.1, .ok entries)

/-- `WorkflowExecutor.execute` (lines 283-367): the starting log, the try
body, the catch converting any exception into the `results: null` sentinel
record, and the finally running `cleanup` on whatever session handle
exists.  The returned `logs` alias the executor's array, so they include
the cleanup entries appended during the `finally` block. -/
def execute (env : StepEnv) (executionId : String) (wf : Workflow) : ExecOutcome :=
  let startItem := TraceItem.log (startLog wf.name)
  let body := executeBody env executionId wf
  let afterCatch : List TraceItem × JSVal :=
    match body.2.2 with
    | .ok entries => (startItem :: body.1, aggregateResults entries)
    | .error e =>
      (startItem :: body.1 ++ [TraceItem.log (workflowFailedLog e)], JSVal.null)
  let cl := cleanup env body.2.1
  let trace := afterCatch.1 ++ cl.1.map TraceItem.log
  { result :=
      { results := afterCatch.2
        logs := logsOfTrace trace
        duration := env.elapsed
        tokenUsage := env.gatewayUsages.foldl trackUsage TokenUsage.init }
    trace := trace
    closes := cl.2 }

/-- `=== null` check used by the route on the resolved record
(routes, line 210): only the `null` sentinel matches. -/
def isNullSentinel : JSVal → Bool
  | .null => true
  | _ => false

/-- The state-machine decision of the execute route (lines 209-243):
`results === null` marks the execution failed, anything else completed. -/
def routeFinalStatus (r : ExecResult) : String :=
  if isNullSentinel r.results then "failed" else "completed"

/-! ## The gateway client (src/server/lib/custom-llm-client.ts) -/

/-- Outcome of one `makeRequest` network attempt: a parsed 2xx body, a
401 (which also clears the cached token before rejecting, line 114), or
any other rejection (non-2xx status, parse failure, transport error) with
its error message. -/
inductive AttemptOutcome where
  | success (data : JSVal)
  | unauthorized (body : String)
  | failure (message : String)
deriving Repr, Inhabited

/-- Oracle for one `createChatCompletion` call: the outcome of the n-th
network attempt, the result of the n-th `fetchOAuthConfig` call (its
access token; the optional baseURL only redirects the transport), and the
wall clock used for response defaults. -/
structure GatewayEnv where
  attempt : Nat → AttemptOutcome
  fetch : Nat → Except String String
  now : Nat

/-- The error message a 401 rejects with (line 115). -/
def unauthorizedMsg (body : String) : String :=
  "Unauthorized – token expired or invalid: " ++ body

/-- `error.message.includes("Unauthorized")` (line 164): the retry loop
classifies failures by this substring test on the message. -/
def containsUnauthorized (msg : String) : Bool :=
  (msg.splitOn "Unauthorized").length != 1

/-- The canonical response `createChatCompletion` returns on success
(lines 143-160). -/
structure FormattedResponse where
  id : JSVal
  created : Nat
  model : String
  content : JSVal
  tool_calls : List JSVal
  finish_reason : JSVal
  usage : Usage
deriving Repr, Inhabited

/-- Normalization of a parsed 2xx body (lines 134-160):
`data?.choices?.[0]?.message?.content || data.content || ""`, tool calls
kept only when a non-empty array, defaults for id/finish_reason, and the
`|| 0` usage fields. -/
def formatResponse (env : GatewayEnv) (modelName : String) (data : JSVal) :
    FormattedResponse :=
  let choice0 := (data.getProp "choices").index 0
  let content := jsOr (jsOr ((choice0.getProp "message").getProp "content")
    (data.getProp "content")) (JSVal.str "")
  let tool_calls :=
    match (choice0.getProp "message").getProp "tool_calls" with
    | .arr (x :: xs) => x :: xs
    | _ => []
  { id := jsOr (data.getProp "id") (JSVal.str s!"custom-{env.now}")
    created := env.now / 1000
    model := modelName
    content := content
    tool_calls := tool_calls
    finish_reason := jsOr (choice0.getProp "finish_reason") (JSVal.str "stop")
    usage := usageOfData data }

/-- Observable outcome of the retry loop: the returned response or thrown
error, plus how many network attempts and token refreshes it made and the
cached-token state it leaves behind. -/
structure LoopOut where
  outcome : Except String FormattedResponse
  attempts : Nat
  refreshes : Nat
  token : Option String
deriving Repr, Inhabited

/-- The `while (retries > 0)` loop of `createChatCompletion`
(lines 131-183).  A caught failure whose message contains "Unauthorized"
decrements the budget, rethrows it if the budget just hit zero, and
otherwise refreshes the token (a refresh failure is itself thrown); any
other caught failure decrements the budget and retries without touching
the token (the `retries <= 0` rethrow there is unreachable, since the
loop guard keeps `retries` positive).  A loop exit throws
"Max retries exceeded". -/
def retryLoop (env : GatewayEnv) (modelName : String) :
    Nat → Nat → Nat → Option String → LoopOut
  | 0, _, _, token => ⟨.error "Max retries exceeded", 0, 0, token⟩
  | r + 1, attemptIdx, fetchIdx, token =>
    match env.attempt attemptIdx with
    | .success data => ⟨.ok (formatResponse env modelName data), 1, 0, token⟩
    | .unauthorized body =>
      let msg := unauthorizedMsg body
      if r = 0 then ⟨.error msg, 1, 0, none⟩
      else
        match env.fetch fetchIdx with
        | .error te => ⟨.error te, 1, 1, none⟩
        | .ok t =>
          let rest := retryLoop env modelName r (attemptIdx + 1) (fetchIdx + 1) (some t)
          ⟨rest.outcome, rest.attempts + 1, rest.refreshes + 1, rest.token⟩
    | .failure msg =>
      if containsUnauthorized msg then
        if r = 0 then ⟨.error msg, 1, 0, token⟩
        else
          match env.fetch fetchIdx with
          | .error te => ⟨.error te, 1, 1, token⟩
          | .ok t =>
            let rest := retryLoop env modelName r (attemptIdx + 1) (fetchIdx + 1) (some t)
            ⟨rest.outcome, rest.attempts + 1, rest.refreshes + 1, rest.token⟩
      else
        let rest := retryLoop env modelName r (attemptIdx + 1) fetchIdx token
        ⟨rest.outcome, rest.attempts + 1, rest.refreshes, rest.token⟩

/-- Observable outcome of one `createChatCompletion` call. -/
structure CompleteOut where
  outcome : Except String FormattedResponse
  attempts : Nat
  refreshes : Nat
  initialFetch : Bool
  token : Option String
deriving Repr, Inhabited

/-- `createChatCompletion` (lines 49-184): with no cached token, one
initial `fetchOAuthConfig` whose failure fails the call with zero network
attempts; then the retry loop with a budget of 3. -/
def createChatCompletion (env : GatewayEnv) (modelName : String)
    (cachedToken : Option String) : CompleteOut :=
  match cachedToken with
  | some t =>
    let lo := retryLoop env modelName 3 0 0 (some t)
    ⟨lo.outcome, lo.attempts, lo.refreshes, false, lo.token⟩
  | none =>
    match env.fetch 0 with
    | .error e => ⟨.error e, 0, 0, true, none⟩
    | .ok t =>
      let lo := retryLoop env modelName 3 0 1 (some t)
      ⟨lo.outcome, lo.attempts, lo.refreshes, true, lo.token⟩

/-! ## The storage layer and the execute route

`MemStorage.updateExecution` merges a partial update into an execution
record by object spread; the execute route drives one record through
queued → running → terminal while the executor's fire-and-forget log
persistence issues logs-only updates that may land at any point of that
sequence (spec §4.4 documents that their order is not guaranteed). -/

/-- The fields of an execution record the route and the executor write. -/
structure ExecutionRec where
  status : String
  logs : List LogEntry
  results : JSVal
  error : Option String
  completedAt : Option String
  duration : Option Nat
  tokenUsage : Option TokenUsage
deriving Repr, Inhabited

/-- A partial execution update: present fields overwrite on merge. -/
structure ExecutionUpdate where
  status : Option String := none
  logs : Option (List LogEntry) := none
  results : Option JSVal := none
  error : Option String := none
  completedAt : Option String := none
  duration : Option Nat := none
  tokenUsage : Option TokenUsage := none
deriving Repr, Inhabited

/-- `MemStorage.updateExecution` (storage, lines 238-249): the spread
merge `{...execution, ...updates}` applied unconditionally — no guard on
the record's current (possibly terminal) status. -/
def updateExecution (e : ExecutionRec) (u : ExecutionUpdate) : ExecutionRec :=
  { status := u.status.getD e.status
    logs := u.logs.getD e.logs
    results := u.results.getD e.results
    error := u.error.orElse fun _ => e.error
    completedAt := u.completedAt.orElse fun _ => e.completedAt
    duration := u.duration.orElse fun _ => e.duration
    tokenUsage := u.tokenUsage.orElse fun _ => e.tokenUsage }

/-- The record the route creates for a new run (routes, lines 179-185). -/
def createdExecution : ExecutionRec :=
  { status := "queued", logs := [], results := JSVal.null, error := none
    completedAt := none, duration := none, tokenUsage := none }

/-- The status-to-running update the route awaits before starting the
executor (lines 195-197). -/
def runningUpdate : ExecutionUpdate := { status := some "running" }

/-- A fire-and-forget log-persistence update
(workflow-executor.ts lines 56-62): it writes only the `logs` field. -/
def persistLogsUpdate (logs : List LogEntry) : ExecutionUpdate := { logs := some logs }

/-- The terminal update the route awaits once the executor resolves
(lines 210-235): failed with an error message, or completed with the
results, in both cases with logs, duration, token usage and a completion
timestamp. -/
def terminalUpdate (r : ExecResult) (completedAt : String) : ExecutionUpdate :=
  if isNullSentinel r.results then
    { status := some "failed"
      error := some "Workflow execution failed. Check logs for details."
      logs := some r.logs
      completedAt := some completedAt
      duration := some r.duration
      tokenUsage := some r.tokenUsage }
  else
    { status := some "completed"
      logs := some r.logs
      results := some r.results
      completedAt := some completedAt
      duration := some r.duration
      tokenUsage := some r.tokenUsage }

/-- Folding a sequence of updates through the store. -/
def applyUpdates (e : ExecutionRec) (us : List ExecutionUpdate) : ExecutionRec :=
  us.foldl updateExecution e

/-- The update sequences one run of the execute route can issue against
its execution record: the awaited running update, then the awaited
terminal update, with the executor's fire-and-forget log persistences
landing at arbitrary points after the run started.  `mids` are the
pre-terminal persistences (snapshots of the live log array mid-run);
the `n` persistences that land after the terminal update store the very
array the terminal update stored: `persistLogsToStorage` writes a
reference to the executor's single, never-reassigned `logs` array,
`result.logs` aliases that same array, and every `addLog` (cleanup
included) happens before `execute` resolves, so from the terminal update
onward the array's content is final and equal to `r.logs`. -/
def routeUpdateSeq (mids : List (List LogEntry)) (r : ExecResult) (ca : String)
    (n : Nat) : List ExecutionUpdate :=
  runningUpdate :: mids.map persistLogsUpdate ++
    terminalUpdate r ca :: List.replicate n (persistLogsUpdate r.logs)

/-! ## Derived notions used in the statements -/

/-- Whether session initialization succeeds in the given environment. -/
def initOk (env : StepEnv) : Bool :=
  match env.initOutcome with
  | .ok _ => true
  | .error _ => false

/-- The results entries a step list contributes, derived step by step:
exactly the steps whose dispatch succeeds with a truthy value, each as
`{step, result}`, in original step order. -/
def canonicalEntries (env : StepEnv) (steps : List AutomationStep) : List ResultEntry :=
  steps.filterMap fun s =>
    match stepOutcome env s with
    | .ok v => if v.truthy then some ⟨s.id, v⟩ else none
    | .error _ => none

/-- The trace segment one sequential iteration emits for step `s` at loop
index `i`: the progress event followed by everything the step logs. -/
def stepSegment (env : StepEnv) (executionId : String) (totalSteps i : Nat)
    (s : AutomationStep) : List TraceItem :=
  TraceItem.progress executionId i totalSteps s.description ::
    (executeStep env true s).1.map TraceItem.log

/-- Step lifecycle log entries: category "step" at a non-warning level,
i.e. the announcement/success/failure entries of `executeStep` (the only
other category-"step" entry is the unknown-type warning). -/
def stepLifecycle (e : LogEntry) : Bool :=
  e.category == "step" && !(e.level == "warning")

/-- The progress events of a trace as `(currentStep, totalSteps,
stepDescription)` triples, in emission order. -/
def progressOf (tr : List TraceItem) : List (Nat × Nat × String) :=
  tr.filterMap fun item =>
    match item with
    | .progress _ i n d => some (i, n, d)
    | _ => none

/-- A network attempt outcome the retry loop classifies as a non-auth
failure (a rejection whose message does not contain "Unauthorized"). -/
def isNonAuthFailure (a : AttemptOutcome) : Bool :=
  match a with
  | .failure m => !containsUnauthorized m
  | _ => false

/-- The cost contribution of one usage block at the fixed rates
0.03 / 0.06 per thousand prompt / completion tokens. -/
def costOf (u : Usage) : ℚ :=
  ((u.prompt_tokens : ℚ) / 1000) * (3 / 100) +
    ((u.completion_tokens : ℚ) / 1000) * (6 / 100)

/-- Nonnegative reported usage counts. -/
def usageNonneg (u : Usage) : Prop :=
  0 ≤ u.prompt_tokens ∧ 0 ≤ u.completion_tokens ∧ 0 ≤ u.total_tokens

/-- Componentwise order on running totals. -/
def tuLe (a b : TokenUsage) : Prop :=
  a.promptTokens ≤ b.promptTokens ∧ a.completionTokens ≤ b.completionTokens ∧
    a.totalTokens ≤ b.totalTokens ∧ a.estimatedCost ≤ b.estimatedCost

/-! ## Concrete environments and workflows for witnesses and
counterexamples -/

/-- An environment in which everything external succeeds; the step whose
id is "bad" throws "boom". -/
def wEnv : StepEnv :=
  { initOutcome := .ok ()
    stepCall := fun s => if s.id = "bad" then .error "boom" else .ok (JSVal.str "val")
    parseSchema := fun _ => .ok (JSVal.obj [])
    closeOutcome := .ok ()
    schedule := List.flatten
    gatewayUsages := [⟨5, 7, 12⟩, ⟨10, 0, 10⟩]
    elapsed := 2345
    now := 99 }

/-- A navigate step (succeeds, returns `undefined`). -/
def wNavStep : AutomationStep :=
  ⟨"n", "navigate", "go", [("url", JSVal.str "http://x")], 0⟩

/-- A scroll step (succeeds, returns `undefined`). -/
def wScrollStep : AutomationStep := ⟨"sc", "scroll", "scroll down", [], 1⟩

/-- An act step that succeeds with a truthy value. -/
def wActStep : AutomationStep := ⟨"a", "act", "do A", [], 0⟩

/-- An extract step that succeeds with a truthy value. -/
def wExtractStep : AutomationStep := ⟨"b", "extract", "get B", [], 1⟩

/-- An act step whose dispatch throws in `wEnv`. -/
def wBadStep : AutomationStep := ⟨"bad", "act", "fail", [], 1⟩

/-- A gateway environment whose first attempt is a 401 and whose second
attempt succeeds; token fetches succeed. -/
def wGenv401 : GatewayEnv :=
  { attempt := fun n =>
      if n = 0 then .unauthorized "expired"
      else .success (JSVal.obj [("id", JSVal.str "r1")])
    fetch := fun _ => .ok "tok2"
    now := 1000 }

/-- A gateway environment in which every attempt is a 401; fetches
succeed. -/
def wGenvAll401 : GatewayEnv :=
  { attempt := fun _ => .unauthorized "x", fetch := fun _ => .ok "t", now := 0 }

/-- A gateway environment in which every attempt fails with a non-auth
500. -/
def wGenvFail : GatewayEnv :=
  { attempt := fun _ => .failure "API request failed with status 500: oops"
    fetch := fun _ => .ok "t", now := 0 }

/-! ## Supporting lemmas -/

@[simp] theorem logsOfTrace_nil : logsOfTrace [] = [] := rfl

@[simp] theorem logsOfTrace_cons_log (e : LogEntry) (tr : List TraceItem) :
    logsOfTrace (TraceItem.log e :: tr) = e :: logsOfTrace tr := rfl

@[simp] theorem logsOfTrace_cons_progress (a : String) (i n : Nat) (d : String)
    (tr : List TraceItem) :
    logsOfTrace (TraceItem.progress a i n d :: tr) = logsOfTrace tr := rfl

@[simp] theorem logsOfTrace_append (a b : List TraceItem) :
    logsOfTrace (a ++ b) = logsOfTrace a ++ logsOfTrace b := by
  simp [logsOfTrace]

@[simp] theorem logsOfTrace_map_log (l : List LogEntry) :
    logsOfTrace (l.map TraceItem.log) = l := by
  induction l with
  | nil => rfl
  | cons e tl ih => simp [ih]

@[simp] theorem progressOf_nil : progressOf [] = [] := rfl

@[simp] theorem progressOf_cons_log (e : LogEntry) (tr : List TraceItem) :
    progressOf (TraceItem.log e :: tr) = progressOf tr := rfl

@[simp] theorem progressOf_cons_progress (a : String) (i n : Nat) (d : String)
    (tr : List TraceItem) :
    progressOf (TraceItem.progress a i n d :: tr) = (i, n, d) :: progressOf tr := rfl

@[simp] theorem progressOf_append (a b : List TraceItem) :
    progressOf (a ++ b) = progressOf a ++ progressOf b := by
  simp [progressOf]

@[simp] theorem progressOf_map_log (l : List LogEntry) :
    progressOf (l.map TraceItem.log) = [] := by
  induction l with
  | nil => rfl
  | cons e tl ih => simp [ih]

@[simp] theorem stepLifecycle_startLog (s : AutomationStep) :
    stepLifecycle (stepStartLog s) = true := rfl

@[simp] theorem stepLifecycle_successLog (s : AutomationStep) :
    stepLifecycle (stepSuccessLog s) = true := rfl

@[simp] theorem stepLifecycle_failureLog (s : AutomationStep) (e : String) :
    stepLifecycle (stepFailureLog s e) = true := rfl

theorem stepOk_ok (env : StepEnv) (s : AutomationStep) (h : stepOk env s = true) :
    ∃ v, stepOutcome env s = .ok v := by
  unfold stepOk at h
  cases hout : stepOutcome env s <;> rw [hout] at h
  · exact absurd h (by simp)
  · exact ⟨_, rfl⟩

theorem stepOk_err (env : StepEnv) (s : AutomationStep) (h : stepOk env s = false) :
    stepOutcome env s = .error (errMsg (stepOutcome env s)) := by
  unfold stepOk at h
  cases hout : stepOutcome env s <;> rw [hout] at h
  · rfl
  · exact absurd h (by simp)

theorem dispatch_no_lifecycle (env : StepEnv) (s : AutomationStep) :
    ∀ e ∈ (dispatchStep env s).1, stepLifecycle e = false := by
  unfold dispatchStep executeNavigate executeAct executeExtract executeObserve
    executeAgent executeWait executeScreenshot executeScroll
  dsimp only
  repeat' split
  all_goals intro e he
  all_goals simp only [List.mem_cons, List.mem_singleton, List.not_mem_nil,
    or_false] at he
  all_goals rcases he with rfl | rfl <;> rfl

theorem executeStep_filter (env : StepEnv) (s : AutomationStep) :
    (executeStep env true s).1.filter stepLifecycle =
      stepStartLog s ::
        (match stepOutcome env s with
          | .ok _ => [stepSuccessLog s]
          | .error e => [stepFailureLog s e]) := by
  have hd := dispatch_no_lifecycle env s
  have hnil : (dispatchStep env s).1.filter stepLifecycle = [] :=
    List.filter_eq_nil_iff.mpr fun e he => by simp [hd e he]
  unfold stepOutcome executeStep
  cases hout : (dispatchStep env s).2 <;>
    simp [hout, List.filter_append, hnil]

theorem initStagehand_handle (env : StepEnv) : (initStagehand env).2.1 = true := by
  unfold initStagehand
  cases env.initOutcome <;> rfl

theorem executeBody_handle (env : StepEnv) (executionId : String) (wf : Workflow) :
    (executeBody env executionId wf).2.1 = true := by
  cases hini : (initStagehand env).2.2 <;>
    simp only [executeBody, hini] <;>
    first
      | exact initStagehand_handle env
      | (split <;> exact initStagehand_handle env)

theorem cleanup_closes (env : StepEnv) : (cleanup env true).2 = 1 := by
  unfold cleanup
  cases env.closeOutcome <;> rfl

theorem runSequential_allOk (env : StepEnv) (executionId : String) (N : Nat)
    (steps : List AutomationStep) (i : Nat)
    (h : ∀ s ∈ steps, stepOk env s = true) :
    runSequential env executionId N steps i =
      ((steps.enumFrom i).flatMap fun p => stepSegment env executionId N p.1 p.2,
        .ok (canonicalEntries env steps)) := by
  induction steps generalizing i with
  | nil => simp [runSequential, canonicalEntries]
  | cons s rest ih =>
    obtain ⟨v, hv⟩ := stepOk_ok env s (h s (by simp))
    have hv2 : (executeStep env true s).2 = .ok v := hv
    have hrest := ih (i + 1) fun t ht => h t (by simp [ht])
    simp [runSequential, hv2, hrest, stepSegment, canonicalEntries,
      List.filterMap_cons, stepOutcome, List.enumFrom_cons]
    split <;> simp

theorem runSequential_firstFail (env : StepEnv) (executionId : String) (N : Nat)
    (pre : List AutomationStep) (f : AutomationStep) (post : List AutomationStep)
    (i : Nat)
    (hpre : ∀ s ∈ pre, stepOk env s = true)
    (hf : stepOk env f = false) :
    runSequential env executionId N (pre ++ f :: post) i =
      ((pre.enumFrom i).flatMap (fun p => stepSegment env executionId N p.1 p.2) ++
          stepSegment env executionId N (i + pre.length) f,
        .error (errMsg (stepOutcome env f))) := by
  induction pre generalizing i with
  | nil =>
    have hout : (executeStep env true f).2 = .error (errMsg (stepOutcome env f)) :=
      stepOk_err env f hf
    simp [runSequential, hout, stepSegment]
  | cons s rest ih =>
    obtain ⟨v, hv⟩ := stepOk_ok env s (hpre s (by simp))
    have hv2 : (executeStep env true s).2 = .ok v := hv
    have hrest := ih (i + 1) fun t ht => hpre t (by simp [ht])
    simp [runSequential, hv2, hrest, stepSegment, List.enumFrom_cons]
    omega

theorem runSequential_ok_iff (env : StepEnv) (executionId : String) (N : Nat)
    (steps : List AutomationStep) (i : Nat) :
    (runSequential env executionId N steps i).2.isOk = true ↔
      ∀ s ∈ steps, stepOk env s = true := by
  induction steps generalizing i with
  | nil => simp [runSequential, Except.isOk, Except.toBool]
  | cons s rest ih =>
    cases hout : (executeStep env true s).2 with
    | error e =>
      have hok : stepOk env s = false := by simp [stepOk, stepOutcome, hout]
      simp [runSequential, hout, Except.isOk, Except.toBool, hok]
    | ok v =>
      have hok : stepOk env s = true := by simp [stepOk, stepOutcome, hout]
      cases htail : (runSequential env executionId N rest (i + 1)).2 with
      | error e =>
        have := ih (i + 1)
        rw [htail] at this
        simp only [Except.isOk, Except.toBool] at this
        simp [runSequential, hout, htail, Except.isOk, Except.toBool, hok,
          ← this]
      | ok entries =>
        have := ih (i + 1)
        rw [htail] at this
        simp only [Except.isOk, Except.toBool] at this
        simp [runSequential, hout, htail, Except.isOk, Except.toBool, hok,
          ← this]

theorem settleResults_entries (env : StepEnv) (steps : List AutomationStep) (i : Nat) :
    (settleResults (steps.map fun s => (s, (executeStep env true s).2)) i).2 =
      canonicalEntries env steps := by
  induction steps generalizing i with
  | nil => simp [settleResults, canonicalEntries]
  | cons s rest ih =>
    cases hout : (executeStep env true s).2 with
    | error e =>
      simp [settleResults, hout, canonicalEntries, List.filterMap_cons,
        stepOutcome, ih (i + 1)]
    | ok v =>
      simp [settleResults, hout, canonicalEntries, List.filterMap_cons,
        stepOutcome, ih (i + 1)]
      split <;> simp

theorem settleResults_logs (env : StepEnv) (steps : List AutomationStep) (i : Nat) :
    (settleResults (steps.map fun s => (s, (executeStep env true s).2)) i).1 =
      (steps.enumFrom i).filterMap fun p =>
        match stepOutcome env p.2 with
        | .ok _ => none
        | .error e => some (parallelFailLog p.1 e) := by
  induction steps generalizing i with
  | nil => simp [settleResults]
  | cons s rest ih =>
    cases hout : (executeStep env true s).2 with
    | error e =>
      simp [settleResults, hout, List.enumFrom_cons, List.filterMap_cons,
        stepOutcome, ih (i + 1)]
    | ok v =>
      simp [settleResults, hout, List.enumFrom_cons, List.filterMap_cons,
        stepOutcome, ih (i + 1)]

theorem stepOk_err2 (env : StepEnv) (s : AutomationStep) (h : stepOk env s = false) :
    ∃ e, stepOutcome env s = .error e := by
  unfold stepOk at h
  cases hout : stepOutcome env s <;> rw [hout] at h
  · exact ⟨_, rfl⟩
  · exact absurd h (by simp)

theorem initLogs_no_lifecycle (env : StepEnv) :
    ((initStagehand env).1).filter stepLifecycle = [] := by
  unfold initStagehand
  cases env.initOutcome <;> rfl

theorem cleanup_no_lifecycle (env : StepEnv) :
    ((cleanup env true).1).filter stepLifecycle = [] := by
  unfold cleanup
  cases env.closeOutcome <;> rfl

@[simp] theorem logsOfTrace_stepSegment (env : StepEnv) (a : String) (N i : Nat)
    (s : AutomationStep) :
    logsOfTrace (stepSegment env a N i s) = (executeStep env true s).1 := by
  simp [stepSegment]

@[simp] theorem progressOf_stepSegment (env : StepEnv) (a : String) (N i : Nat)
    (s : AutomationStep) :
    progressOf (stepSegment env a N i s) = [(i, N, s.description)] := by
  simp [stepSegment]

theorem filter_lifecycle_flatMap_ok (env : StepEnv) (executionId : String) (N : Nat)
    (steps : List AutomationStep) (i : Nat)
    (h : ∀ s ∈ steps, stepOk env s = true) :
    (logsOfTrace ((steps.enumFrom i).flatMap fun p =>
        stepSegment env executionId N p.1 p.2)).filter stepLifecycle =
      steps.flatMap fun s => [stepStartLog s, stepSuccessLog s] := by
  induction steps generalizing i with
  | nil => simp
  | cons s rest ih =>
    obtain ⟨v, hv⟩ := stepOk_ok env s (h s (by simp))
    have hfilter := executeStep_filter env s
    rw [hv] at hfilter
    simp [List.enumFrom_cons, List.filter_append, hfilter,
      ih (i + 1) fun t ht => h t (by simp [ht])]

theorem progressOf_flatMap (env : StepEnv) (executionId : String) (N : Nat)
    (steps : List AutomationStep) (i : Nat) :
    progressOf ((steps.enumFrom i).flatMap fun p =>
        stepSegment env executionId N p.1 p.2) =
      (steps.enumFrom i).map fun p => (p.1, N, p.2.description) := by
  induction steps generalizing i with
  | nil => simp
  | cons s rest ih => simp [List.enumFrom_cons, ih (i + 1)]

@[simp] theorem stepLifecycle_startLogW (n : String) :
    stepLifecycle (startLog n) = false := rfl

@[simp] theorem stepLifecycle_workflowFailedLog (e : String) :
    stepLifecycle (workflowFailedLog e) = false := rfl

@[simp] theorem stepLifecycle_workflowCompletedLog (n : Nat) :
    stepLifecycle (workflowCompletedLog n) = false := rfl

theorem executeBody_seq_error (env : StepEnv) (executionId wfid name : String)
    (steps : List AutomationStep) (tr : List TraceItem) (e : String)
    (hinit : initOk env = true)
    (hrun : runSequential env executionId steps.length steps 0 = (tr, .error e)) :
    executeBody env executionId ⟨wfid, name, steps, "sequential"⟩ =
      ((initStagehand env).1.map TraceItem.log ++ tr, true, .error e) := by
  cases hio : env.initOutcome with
  | error e2 => simp [initOk, hio] at hinit
  | ok u => simp [executeBody, initStagehand, hio, hrun]

theorem executeBody_seq_ok (env : StepEnv) (executionId wfid name : String)
    (steps : List AutomationStep) (tr : List TraceItem) (entries : List ResultEntry)
    (hinit : initOk env = true)
    (hrun : runSequential env executionId steps.length steps 0 = (tr, .ok entries)) :
    executeBody env executionId ⟨wfid, name, steps, "sequential"⟩ =
      ((initStagehand env).1.map TraceItem.log ++ tr ++
          [TraceItem.progress executionId steps.length steps.length "Completed",
            TraceItem.log (workflowCompletedLog env.elapsed)],
        true, .ok entries) := by
  cases hio : env.initOutcome with
  | error e2 => simp [initOk, hio] at hinit
  | ok u => simp [executeBody, initStagehand, hio, hrun]

theorem execute_of_body_error (env : StepEnv) (executionId : String) (wf : Workflow)
    (btr : List TraceItem) (e : String)
    (hb : executeBody env executionId wf = (btr, true, .error e)) :
    execute env executionId wf =
      { result :=
          { results := JSVal.null
            logs := logsOfTrace
              (TraceItem.log (startLog wf.name) :: btr ++
                TraceItem.log (workflowFailedLog e) ::
                  (cleanup env true).1.map TraceItem.log)
            duration := env.elapsed
            tokenUsage := env.gatewayUsages.foldl trackUsage TokenUsage.init }
        trace := TraceItem.log (startLog wf.name) :: btr ++
          TraceItem.log (workflowFailedLog e) ::
            (cleanup env true).1.map TraceItem.log
        closes := 1 } := by
  simp [execute, hb, cleanup_closes]

theorem execute_of_body_ok (env : StepEnv) (executionId : String) (wf : Workflow)
    (btr : List TraceItem) (entries : List ResultEntry)
    (hb : executeBody env executionId wf = (btr, true, .ok entries)) :
    execute env executionId wf =
      { result :=
          { results := aggregateResults entries
            logs := logsOfTrace
              (TraceItem.log (startLog wf.name) :: btr ++
                (cleanup env true).1.map TraceItem.log)
            duration := env.elapsed
            tokenUsage := env.gatewayUsages.foldl trackUsage TokenUsage.init }
        trace := TraceItem.log (startLog wf.name) :: btr ++
          (cleanup env true).1.map TraceItem.log
        closes := 1 } := by
  simp [execute, hb, cleanup_closes]

/-- C3: for every sequential-mode workflow in which the steps `pre` all
succeed and step `f` (0-indexed position `pre.length`) is the first to
fail, the run resolves with the failure sentinel and the State Machine
marks it Failed; the category-"step" lifecycle log entries are exactly
one announcement/success pair per step of `pre` followed by the
announcement and single failure entry for `f`; and the emitted progress
events stop at `f` — no step after the failing one executes. -/
theorem C3_seq_first_failure (env : StepEnv) (executionId wfid name : String)
    (pre : List AutomationStep) (f : AutomationStep) (post : List AutomationStep)
    (hinit : initOk env = true)
    (hpre : ∀ s ∈ pre, stepOk env s = true)
    (hf : stepOk env f = false) :
    (execute env executionId ⟨wfid, name, pre ++ f :: post, "sequential"⟩).result.results
        = JSVal.null ∧
    routeFinalStatus
        (execute env executionId ⟨wfid, name, pre ++ f :: post, "sequential"⟩).result
        = "failed" ∧
    ((execute env executionId ⟨wfid, name, pre ++ f :: post, "sequential"⟩).result.logs).filter
        stepLifecycle
      = (pre.flatMap fun s => [stepStartLog s, stepSuccessLog s]) ++
          [stepStartLog f, stepFailureLog f (errMsg (stepOutcome env f))] ∧
    progressOf (execute env executionId ⟨wfid, name, pre ++ f :: post, "sequential"⟩).trace
      = (pre.enumFrom 0).map
          (fun p => (p.1, (pre ++ f :: post).length, p.2.description)) ++
          [(pre.length, (pre ++ f :: post).length, f.description)] := by
  have hrun := runSequential_firstFail env executionId
    (pre ++ f :: post).length pre f post 0 hpre hf
  obtain ⟨em, hem⟩ := stepOk_err2 env f hf
  have herr : errMsg (stepOutcome env f) = em := by simp [hem, errMsg]
  have hfilterf := executeStep_filter env f
  rw [hem] at hfilterf
  have hfl : ∀ N, (logsOfTrace ((pre.enumFrom 0).flatMap fun p =>
      stepSegment env executionId N p.1 p.2)).filter stepLifecycle =
        pre.flatMap fun s => [stepStartLog s, stepSuccessLog s] :=
    fun N => filter_lifecycle_flatMap_ok env executionId N pre 0 hpre
  have hb := executeBody_seq_error env executionId wfid name (pre ++ f :: post)
    _ _ hinit hrun
  have hex := execute_of_body_error env executionId
    ⟨wfid, name, pre ++ f :: post, "sequential"⟩ _ _ hb
  rw [hex]
  refine ⟨rfl, rfl, ?_, ?_⟩
  · simp [List.filter_append, initLogs_no_lifecycle, cleanup_no_lifecycle,
      hfl, hfilterf, herr]
  · simp [progressOf_flatMap]

/-- Witness for C3: a three-step sequential workflow whose middle step is
the first to fail. -/
theorem C3_seq_first_failure_witness :
    (execute wEnv "e3"
        ⟨"w3", "W", [wActStep] ++ wBadStep :: [wExtractStep], "sequential"⟩).result.results
      = JSVal.null :=
  (C3_seq_first_failure wEnv "e3" "w3" "W" [wActStep] wBadStep [wExtractStep]
    (by decide) (by decide) (by decide)).1

theorem enumFrom_flatMap_order (f : Nat → AutomationStep → List TraceItem)
    (steps : List AutomationStep) (i : Nat)
    (hord : ∀ p ∈ steps.enumFrom i, p.2.order = p.1) :
    (steps.enumFrom i).flatMap (fun p => f p.1 p.2) =
      steps.flatMap fun s => f s.order s := by
  induction steps generalizing i with
  | nil => simp
  | cons s rest ih =>
    have h0 : s.order = i := hord (i, s) (by simp [List.enumFrom_cons])
    have htl := ih (i + 1) fun p hp => hord p (by simp [List.enumFrom_cons, hp])
    simp [List.enumFrom_cons, h0, htl]

/-- C6: for every sequential-mode workflow whose steps carry the
contiguous ascending order indices the data model requires, and whose
steps all succeed, the emitted trace is exactly: the start and
initialization logs, then — for each step in ascending order index — a
progress event `(currentStepIndex = the step's order index, totalSteps,
description)` immediately followed by all of that step's own log output,
then the final progress event and completion log, then cleanup; so the
progress event precedes each step and step i's observable output is
complete, in program order, before step i+1 starts. -/
theorem C6_sequential_ordering (env : StepEnv) (executionId wfid name : String)
    (steps : List AutomationStep)
    (hinit : initOk env = true)
    (hok : ∀ s ∈ steps, stepOk env s = true)
    (hord : ∀ p ∈ steps.enumFrom 0, p.2.order = p.1) :
    (execute env executionId ⟨wfid, name, steps, "sequential"⟩).trace =
      TraceItem.log (startLog name) ::
        (initStagehand env).1.map TraceItem.log ++
        (steps.flatMap fun s => stepSegment env executionId steps.length s.order s) ++
        [TraceItem.progress executionId steps.length steps.length "Completed",
          TraceItem.log (workflowCompletedLog env.elapsed)] ++
        (cleanup env true).1.map TraceItem.log := by
  have hrun := runSequential_allOk env executionId steps.length steps 0 hok
  have hb := executeBody_seq_ok env executionId wfid name steps _ _ hinit hrun
  have hex := execute_of_body_ok env executionId
    ⟨wfid, name, steps, "sequential"⟩ _ _ hb
  rw [hex]
  have hre := enumFrom_flatMap_order
    (fun i s => stepSegment env executionId steps.length i s) steps 0 hord
  simp only []
  rw [hre]
  simp

/-- Witness for C6 at a concrete two-step workflow in an all-success
environment. -/
theorem C6_sequential_ordering_witness :
    (execute wEnv "e6" ⟨"w6", "W", [wActStep, wExtractStep], "sequential"⟩).trace =
      TraceItem.log (startLog "W") ::
        (initStagehand wEnv).1.map TraceItem.log ++
        ([wActStep, wExtractStep].flatMap fun s =>
          stepSegment wEnv "e6" [wActStep, wExtractStep].length s.order s) ++
        [TraceItem.progress "e6" [wActStep, wExtractStep].length
            [wActStep, wExtractStep].length "Completed",
          TraceItem.log (workflowCompletedLog wEnv.elapsed)] ++
        (cleanup wEnv true).1.map TraceItem.log :=
  C6_sequential_ordering wEnv "e6" "w6" "W" [wActStep, wExtractStep]
    (by decide) (by decide) (by decide)

theorem canonical_mem (env : StepEnv) (steps : List AutomationStep) :
    ∀ e ∈ canonicalEntries env steps, ∃ s ∈ steps, ∃ v,
      stepOutcome env s = .ok v ∧ v.truthy = true ∧ e = ⟨s.id, v⟩ := by
  intro e he
  rw [canonicalEntries, List.mem_filterMap] at he
  obtain ⟨s, hs, hm⟩ := he
  cases hout : stepOutcome env s with
  | error e2 =>
    simp only [hout] at hm
    cases hm
  | ok v =>
    simp only [hout] at hm
    by_cases htr : v.truthy = true
    · rw [if_pos htr] at hm
      exact ⟨s, hs, v, hout, htr, (Option.some_inj.mp hm).symm⟩
    · rw [if_neg htr] at hm
      simp at hm

theorem isNullSentinel_of_truthy (v : JSVal) (h : v.truthy = true) :
    isNullSentinel v = false := by
  cases v <;> simp_all [isNullSentinel, JSVal.truthy]

theorem aggregateResults_big (entries : List ResultEntry)
    (h : 2 ≤ entries.length) :
    aggregateResults entries = JSVal.arr (entries.map entryToJS) := by
  match entries with
  | [] => simp at h
  | [e] => simp at h
  | a :: b :: rest => rfl

theorem aggregate_canonical_not_null (env : StepEnv) (steps : List AutomationStep) :
    isNullSentinel (aggregateResults (canonicalEntries env steps)) = false := by
  cases hc : canonicalEntries env steps with
  | nil => rfl
  | cons e rest =>
    cases rest with
    | nil =>
      obtain ⟨s, hs, v, hout, htr, he⟩ :=
        canonical_mem env steps e (by rw [hc]; simp)
      subst he
      simpa [aggregateResults] using isNullSentinel_of_truthy v htr
    | cons b r2 => rfl

theorem executeBody_par (env : StepEnv) (executionId wfid name : String)
    (steps : List AutomationStep) (hinit : initOk env = true) :
    executeBody env executionId ⟨wfid, name, steps, "parallel"⟩ =
      ((initStagehand env).1.map TraceItem.log ++ (runParallel env steps).1 ++
          [TraceItem.progress executionId steps.length steps.length "Completed",
            TraceItem.log (workflowCompletedLog env.elapsed)],
        true, .ok (runParallel env steps).2) := by
  cases hio : env.initOutcome with
  | error e2 => simp [initOk, hio] at hinit
  | ok u => simp [executeBody, initStagehand, hio]

theorem executeBody_initFail (env : StepEnv) (executionId : String) (wf : Workflow)
    (e : String) (hio : env.initOutcome = .error e) :
    executeBody env executionId wf =
      ((initStagehand env).1.map TraceItem.log, true, .error e) := by
  simp [executeBody, initStagehand, hio]

theorem executeBody_other (env : StepEnv) (executionId : String) (wf : Workflow)
    (hinit : initOk env = true)
    (h1 : wf.executionMode ≠ "sequential") (h2 : wf.executionMode ≠ "parallel") :
    executeBody env executionId wf =
      ((initStagehand env).1.map TraceItem.log ++
          [TraceItem.progress executionId wf.steps.length wf.steps.length "Completed",
            TraceItem.log (workflowCompletedLog env.elapsed)],
        true, .ok []) := by
  cases hio : env.initOutcome with
  | error e2 => simp [initOk, hio] at hinit
  | ok u => simp [executeBody, initStagehand, hio, h1, h2]

theorem runParallel_entries (env : StepEnv) (steps : List AutomationStep) :
    (runParallel env steps).2 = canonicalEntries env steps := by
  simp [runParallel, settleResults_entries]

theorem routeFinalStatus_failed_iff (r : ExecResult) :
    routeFinalStatus r = "failed" ↔ r.results = JSVal.null := by
  unfold routeFinalStatus
  cases hr : r.results <;> simp [isNullSentinel]

/-- C1: the orchestrator's run function never raises outward (it is a
total function into the `{results, logs, duration, tokenUsage}` record);
the returned `results` is the `null` failure sentinel exactly when the
run threw internally — initialization failed, or a step of a
sequential-mode run failed — and the route marks the execution Failed
exactly on that sentinel, marking every other value Completed, including
the empty collection. -/
theorem C1_completion_policy (env : StepEnv) (executionId : String) (wf : Workflow) :
    ((execute env executionId wf).result.results = JSVal.null ↔
      (initOk env = false ∨ (wf.executionMode = "sequential" ∧
        ∃ s ∈ wf.steps, stepOk env s = false))) ∧
    (routeFinalStatus (execute env executionId wf).result = "failed" ↔
      (execute env executionId wf).result.results = JSVal.null) ∧
    ((execute env executionId wf).result.results = JSVal.arr [] →
      routeFinalStatus (execute env executionId wf).result = "completed") := by
  refine ⟨?_, routeFinalStatus_failed_iff _, ?_⟩
  · rcases wf with ⟨wid, wname, wsteps, wmode⟩
    cases hio : env.initOutcome with
    | error e =>
      have hb := executeBody_initFail env executionId ⟨wid, wname, wsteps, wmode⟩ e hio
      rw [execute_of_body_error _ _ _ _ _ hb]
      simp [initOk, hio]
    | ok u =>
      have hinit : initOk env = true := by simp [initOk, hio]
      by_cases hseq : wmode = "sequential"
      · subst hseq
        cases hrs : runSequential env executionId wsteps.length wsteps 0 with
        | mk tr out =>
          cases out with
          | error e =>
            have hb := executeBody_seq_error env executionId wid wname wsteps
              tr e hinit hrs
            rw [execute_of_body_error _ _ _ _ _ hb]
            have hnall : ¬ ∀ s ∈ wsteps, stepOk env s = true := by
              intro hall
              have h2 := (runSequential_ok_iff env executionId
                wsteps.length wsteps 0).mpr hall
              rw [hrs] at h2
              simp [Except.isOk, Except.toBool] at h2
            have hex2 : ∃ s ∈ wsteps, stepOk env s = false := by
              by_contra hcon
              apply hnall
              intro s hs
              cases hb2 : stepOk env s
              · exact absurd ⟨s, hs, hb2⟩ hcon
              · rfl
            exact ⟨fun _ => Or.inr ⟨rfl, hex2⟩, fun _ => rfl⟩
          | ok entries =>
            have hall : ∀ s ∈ wsteps, stepOk env s = true := by
              have h2 := runSequential_ok_iff env executionId
                wsteps.length wsteps 0
              rw [hrs] at h2
              exact h2.mp rfl
            have hcanon := runSequential_allOk env executionId
              wsteps.length wsteps 0 hall
            rw [hrs] at hcanon
            have hent : entries = canonicalEntries env wsteps := by
              have h3 := congrArg Prod.snd hcanon
              simpa using h3
            have hb := executeBody_seq_ok env executionId wid wname wsteps
              tr entries hinit hrs
            rw [execute_of_body_ok _ _ _ _ _ hb]
            dsimp only
            have hnn := aggregate_canonical_not_null env wsteps
            rw [← hent] at hnn
            constructor
            · intro hnull
              rw [hnull] at hnn
              simp [isNullSentinel] at hnn
            · rintro (h1 | ⟨h2, s, hs, hfalse⟩)
              · rw [hinit] at h1
                cases h1
              · exact absurd (hall s hs) (by simp [hfalse])
      · by_cases hpar : wmode = "parallel"
        · subst hpar
          have hb := executeBody_par env executionId wid wname wsteps hinit
          rw [execute_of_body_ok _ _ _ _ _ hb]
          dsimp only
          have hnn := aggregate_canonical_not_null env wsteps
          rw [← runParallel_entries env wsteps] at hnn
          constructor
          · intro hnull
            rw [hnull] at hnn
            simp [isNullSentinel] at hnn
          · rintro (h1 | ⟨h2, _⟩)
            · rw [hinit] at h1
              cases h1
            · simp at h2
        · have hb := executeBody_other env executionId
            ⟨wid, wname, wsteps, wmode⟩ hinit hseq hpar
          rw [execute_of_body_ok _ _ _ _ _ hb]
          dsimp only
          constructor
          · intro hnull
            simp [aggregateResults] at hnull
          · rintro (h1 | ⟨h2, _⟩)
            · rw [hinit] at h1
              cases h1
            · exact absurd h2 hseq
  · intro h
    simp [routeFinalStatus, h, isNullSentinel]

/-- C2: result aggregation, identical in both modes: the aggregated
entries are exactly those of steps whose dispatch produced a truthy
(hence non-absent) value, as `{step, result}` in original step order;
one entry unwraps to its bare result value, two or more yield the ordered
entry list, zero yield the empty collection — never the `null` failure
sentinel. -/
theorem C2_result_aggregation (env : StepEnv) (executionId wfid name : String)
    (steps : List AutomationStep) (hinit : initOk env = true) :
    ((∀ s ∈ steps, stepOk env s = true) →
      (execute env executionId ⟨wfid, name, steps, "sequential"⟩).result.results =
        aggregateResults (canonicalEntries env steps)) ∧
    ((execute env executionId ⟨wfid, name, steps, "parallel"⟩).result.results =
      aggregateResults (canonicalEntries env steps)) ∧
    (∀ e ∈ canonicalEntries env steps, ∃ s ∈ steps, ∃ v,
      stepOutcome env s = .ok v ∧ v.truthy = true ∧ e = ⟨s.id, v⟩) ∧
    (∀ e, canonicalEntries env steps = [e] →
      aggregateResults (canonicalEntries env steps) = e.result) ∧
    (2 ≤ (canonicalEntries env steps).length →
      aggregateResults (canonicalEntries env steps) =
        JSVal.arr ((canonicalEntries env steps).map entryToJS)) ∧
    (canonicalEntries env steps = [] →
      aggregateResults (canonicalEntries env steps) = JSVal.arr []) ∧
    isNullSentinel (aggregateResults (canonicalEntries env steps)) = false := by
  refine ⟨?_, ?_, canonical_mem env steps, ?_, aggregateResults_big _, ?_,
    aggregate_canonical_not_null env steps⟩
  · intro hall
    have hrun := runSequential_allOk env executionId steps.length steps 0 hall
    have hb := executeBody_seq_ok env executionId wfid name steps _ _ hinit hrun
    rw [execute_of_body_ok _ _ _ _ _ hb]
  · have hb := executeBody_par env executionId wfid name steps hinit
    rw [execute_of_body_ok _ _ _ _ _ hb]
    dsimp only
    rw [runParallel_entries env steps]
  · intro e h
    rw [h]
    rfl
  · intro h
    rw [h]
    rfl

theorem canonicalEntries_cons_err (env : StepEnv) (s : AutomationStep)
    (rest : List AutomationStep) (e : String) (h : stepOutcome env s = .error e) :
    canonicalEntries env (s :: rest) = canonicalEntries env rest := by
  simp [canonicalEntries, List.filterMap_cons, h]

theorem canonicalEntries_cons_ok_truthy (env : StepEnv) (s : AutomationStep)
    (rest : List AutomationStep) (v : JSVal) (h : stepOutcome env s = .ok v)
    (ht : v.truthy = true) :
    canonicalEntries env (s :: rest) = ⟨s.id, v⟩ :: canonicalEntries env rest := by
  simp [canonicalEntries, List.filterMap_cons, h, ht]

theorem canonicalEntries_cons_ok_falsy (env : StepEnv) (s : AutomationStep)
    (rest : List AutomationStep) (v : JSVal) (h : stepOutcome env s = .ok v)
    (ht : v.truthy = false) :
    canonicalEntries env (s :: rest) = canonicalEntries env rest := by
  simp [canonicalEntries, List.filterMap_cons, h, ht]

theorem canonicalEntries_append (env : StepEnv) (a b : List AutomationStep) :
    canonicalEntries env (a ++ b) =
      canonicalEntries env a ++ canonicalEntries env b := by
  simp [canonicalEntries]

theorem canonicalEntries_length (env : StepEnv) (steps : List AutomationStep)
    (h : ∀ s ∈ steps, stepOk env s = true → stepTruthy env s = true) :
    (canonicalEntries env steps).length +
      (steps.filter fun s => !(stepOk env s)).length = steps.length := by
  induction steps with
  | nil => simp [canonicalEntries]
  | cons s rest ih =>
    have htl := ih fun t ht h2 => h t (by simp [ht]) h2
    cases hout : stepOutcome env s with
    | error e =>
      have hok : stepOk env s = false := by simp [stepOk, hout]
      rw [canonicalEntries_cons_err env s rest e hout]
      simp [List.filter_cons, hok]
      omega
    | ok v =>
      have hok : stepOk env s = true := by simp [stepOk, hout]
      have htr : v.truthy = true := by
        have h3 := h s (by simp) hok
        simpa [stepTruthy, hout] using h3
      rw [canonicalEntries_cons_ok_truthy env s rest v hout htr]
      simp [List.filter_cons, hok]
      omega

/-- C4 (amended): for every parallel-mode workflow, no step failure
aborts the sibling steps — every step's outcome is settled and folded in
— each failing step is logged with the "Parallel step i+1 failed" error
entry, the final status is Completed (never Failed), and the results
collection contains, ordered by original step index, exactly one entry
per step that succeeded with a truthy value; this count equals N−M
(N steps, M failures) exactly when every successful step produced a
truthy value. -/
theorem C4_parallel_isolation (env : StepEnv) (executionId wfid name : String)
    (steps : List AutomationStep) (hinit : initOk env = true) :
    routeFinalStatus
        (execute env executionId ⟨wfid, name, steps, "parallel"⟩).result
      = "completed" ∧
    (execute env executionId ⟨wfid, name, steps, "parallel"⟩).result.results =
      aggregateResults (canonicalEntries env steps) ∧
    (∀ p ∈ steps.enumFrom 0, stepOk env p.2 = false →
      parallelFailLog p.1 (errMsg (stepOutcome env p.2)) ∈
        (execute env executionId ⟨wfid, name, steps, "parallel"⟩).result.logs) ∧
    ((∀ s ∈ steps, stepOk env s = true → stepTruthy env s = true) →
      (canonicalEntries env steps).length +
        (steps.filter fun s => !(stepOk env s)).length = steps.length) := by
  have hb := executeBody_par env executionId wfid name steps hinit
  have hex := execute_of_body_ok env executionId ⟨wfid, name, steps, "parallel"⟩ _ _ hb
  have hnn := aggregate_canonical_not_null env steps
  rw [← runParallel_entries env steps] at hnn
  refine ⟨?_, ?_, ?_, canonicalEntries_length env steps⟩
  · rw [hex]
    simp [routeFinalStatus, hnn]
  · rw [hex]
    dsimp only
    rw [runParallel_entries env steps]
  · intro p hp hfalse
    obtain ⟨e, he⟩ := stepOk_err2 env p.2 hfalse
    have herr2 : errMsg (stepOutcome env p.2) = e := by simp [he, errMsg]
    have hmem : parallelFailLog p.1 e ∈
        (steps.enumFrom 0).filterMap (fun q =>
          match stepOutcome env q.2 with
          | .ok _ => none
          | .error e2 => some (parallelFailLog q.1 e2)) :=
      List.mem_filterMap.mpr ⟨p, hp, by simp [he]⟩
    rw [hex, herr2]
    dsimp only
    simp [runParallel, settleResults_logs, hmem]

/-- Witness for C4's amended statement on a concrete two-step parallel
workflow with one failing step. -/
theorem C4_parallel_isolation_witness :
    routeFinalStatus
        (execute wEnv "e4w" ⟨"w4w", "W", [wActStep, wBadStep], "parallel"⟩).result
      = "completed" ∧
    (canonicalEntries wEnv [wActStep, wBadStep]).length +
      ([wActStep, wBadStep].filter fun s => !(stepOk wEnv s)).length = 2 :=
  ⟨(C4_parallel_isolation wEnv "e4w" "w4w" "W" [wActStep, wBadStep] (by decide)).1,
    (C4_parallel_isolation wEnv "e4w" "w4w" "W" [wActStep, wBadStep]
      (by decide)).2.2.2 (by decide)⟩

/-- Counterexample to C4 as stated: a parallel workflow of N = 1 steps
with M = 0 failures whose results collection has 0 entries, not
N − M = 1 — the navigate step succeeds but returns no value, so the
truthiness filter drops it. -/
theorem C4_counterexample :
    stepOk wEnv wNavStep = true ∧
    (execute wEnv "e4" ⟨"w4", "W", [wNavStep], "parallel"⟩).result.results
      = JSVal.arr [] ∧
    (canonicalEntries wEnv [wNavStep]).length = 0 ∧
    (0 : Nat) ≠ [wNavStep].length - ([wNavStep].filter
      fun s => !(stepOk wEnv s)).length := by
  refine ⟨by decide, rfl, by decide, by decide⟩

/-- C10: a step whose dispatch succeeds but returns a falsy value
contributes no results entry — in particular navigate, scroll and wait
steps always resolve with `undefined` — so a workflow consisting only of
such steps completes with an empty results collection even though every
step succeeded. -/
theorem C10_falsy_success_contributes_nothing (env : StepEnv) :
    (∀ s v, (s.type = "navigate" ∨ s.type = "scroll" ∨
        (s.type = "wait" ∧ (propOf s.config "selector").truthy = false)) →
      stepOutcome env s = .ok v → v = JSVal.undefined) ∧
    (∀ pre s post v, stepOutcome env s = .ok v → v.truthy = false →
      canonicalEntries env (pre ++ s :: post) =
        canonicalEntries env pre ++ canonicalEntries env post) ∧
    ((execute wEnv "e10" ⟨"w10", "W", [wNavStep, wScrollStep], "sequential"⟩).result.results
        = JSVal.arr [] ∧
      routeFinalStatus (execute wEnv "e10"
        ⟨"w10", "W", [wNavStep, wScrollStep], "sequential"⟩).result = "completed" ∧
      stepOk wEnv wNavStep = true ∧ stepOk wEnv wScrollStep = true) := by
  refine ⟨?_, ?_, rfl, rfl, by decide, by decide⟩
  · rintro s v (hty | hty | ⟨hty, hsel⟩) hout <;>
      unfold stepOutcome executeStep dispatchStep at hout <;>
      rw [hty] at hout <;>
      [unfold executeNavigate at hout; unfold executeScroll at hout;
        unfold executeWait at hout]
    · cases hc : env.stepCall s <;> rw [hc] at hout <;> simp_all
    · cases hc : env.stepCall s <;> rw [hc] at hout <;> simp_all
    · simp only [hsel] at hout
      simp_all
  · intro pre s post v hout hfalsy
    rw [canonicalEntries_append, canonicalEntries_cons_ok_falsy env s post v hout hfalsy]

/-- Witness for C10 at the concrete navigate step and a two-step
falsy-only workflow. -/
theorem C10_falsy_success_witness :
    stepOutcome wEnv wNavStep = Except.ok JSVal.undefined ∧
    canonicalEntries wEnv ([] ++ wNavStep :: [wScrollStep]) =
      canonicalEntries wEnv [] ++ canonicalEntries wEnv [wScrollStep] ∧
    (execute wEnv "e10" ⟨"w10", "W", [wNavStep, wScrollStep], "sequential"⟩).result.results
      = JSVal.arr [] :=
  ⟨rfl,
    (C10_falsy_success_contributes_nothing wEnv).2.1 [] wNavStep [wScrollStep]
      JSVal.undefined rfl rfl,
    ((C10_falsy_success_contributes_nothing wEnv).2.2).1⟩

theorem isNonAuthFailure_elim (a : AttemptOutcome)
    (h : isNonAuthFailure a = true) :
    ∃ m, a = .failure m ∧ containsUnauthorized m = false := by
  cases a with
  | success data => simp [isNonAuthFailure] at h
  | unauthorized body => simp [isNonAuthFailure] at h
  | failure m =>
    refine ⟨m, rfl, ?_⟩
    simpa [isNonAuthFailure] using h

theorem retryLoop_attempts_le (env : GatewayEnv) (modelName : String) :
    ∀ r aIdx fIdx tok, (retryLoop env modelName r aIdx fIdx tok).attempts ≤ r := by
  intro r
  induction r with
  | zero => intro aIdx fIdx tok; simp [retryLoop]
  | succ r ih =>
    intro aIdx fIdx tok
    unfold retryLoop
    cases env.attempt aIdx with
    | success data => simp
    | unauthorized body =>
      by_cases hr : r = 0
      · simp [hr]
      · cases hfe : env.fetch fIdx with
        | error te => simp [hr, hfe]
        | ok t2 =>
          have h2 := ih (aIdx + 1) (fIdx + 1) (some t2)
          simp [hr, hfe]
          omega
    | failure msg =>
      by_cases hm : containsUnauthorized msg = true
      · by_cases hr : r = 0
        · simp [hm, hr]
        · cases hfe : env.fetch fIdx with
          | error te => simp [hm, hr, hfe]
          | ok t2 =>
            have h2 := ih (aIdx + 1) (fIdx + 1) (some t2)
            simp [hm, hr, hfe]
            omega
      · have hm2 : containsUnauthorized msg = false := by
          cases hcm : containsUnauthorized msg
          · rfl
          · exact absurd hcm hm
        have h2 := ih (aIdx + 1) fIdx tok
        simp [hm2]
        omega

/-- C5 (amended): every `complete()` call with a cached token makes at
most 3 network attempts, the shared budget covering both failure kinds
(classified by whether the caught message contains "Unauthorized"): a
401 with at least two budget units left refreshes the token and retries,
a non-auth failure retries on the same budget with no refresh, three
consecutive non-auth failures raise the definitive retry-exhausted
failure after exactly 3 attempts and no refresh, a 401 followed by a 200
succeeds with exactly 2 attempts and exactly one refresh — but budget
exhaustion on a 401 re-raises that Unauthorized failure itself (with no
refresh for it), not the retry-exhausted failure. -/
theorem C5_retry_policy (env : GatewayEnv) (modelName t : String) :
    (createChatCompletion env modelName (some t)).attempts ≤ 3 ∧
    ((∀ i, i < 3 → isNonAuthFailure (env.attempt i) = true) →
      (createChatCompletion env modelName (some t)).outcome =
          .error "Max retries exceeded" ∧
        (createChatCompletion env modelName (some t)).attempts = 3 ∧
        (createChatCompletion env modelName (some t)).refreshes = 0) ∧
    (∀ b data tok, env.attempt 0 = .unauthorized b →
      env.attempt 1 = .success data → env.fetch 0 = .ok tok →
      (createChatCompletion env modelName (some t)).outcome =
          .ok (formatResponse env modelName data) ∧
        (createChatCompletion env modelName (some t)).attempts = 2 ∧
        (createChatCompletion env modelName (some t)).refreshes = 1) ∧
    (∀ b0 b1 b2 t0 t1, env.attempt 0 = .unauthorized b0 →
      env.attempt 1 = .unauthorized b1 → env.attempt 2 = .unauthorized b2 →
      env.fetch 0 = .ok t0 → env.fetch 1 = .ok t1 →
      (createChatCompletion env modelName (some t)).outcome =
          .error (unauthorizedMsg b2) ∧
        (createChatCompletion env modelName (some t)).attempts = 3 ∧
        (createChatCompletion env modelName (some t)).refreshes = 2) := by
  refine ⟨?_, ?_, ?_, ?_⟩
  · simpa [createChatCompletion] using
      retryLoop_attempts_le env modelName 3 0 0 (some t)
  · intro hall
    obtain ⟨m0, ha0, hc0⟩ := isNonAuthFailure_elim _ (hall 0 (by norm_num))
    obtain ⟨m1, ha1, hc1⟩ := isNonAuthFailure_elim _ (hall 1 (by norm_num))
    obtain ⟨m2, ha2, hc2⟩ := isNonAuthFailure_elim _ (hall 2 (by norm_num))
    refine ⟨?_, ?_, ?_⟩ <;>
      simp [createChatCompletion, retryLoop, ha0, ha1, ha2, hc0, hc1, hc2]
  · intro b data tok h0 h1 hf0
    refine ⟨?_, ?_, ?_⟩ <;>
      simp [createChatCompletion, retryLoop, h0, h1, hf0]
  · intro b0 b1 b2 t0 t1 h0 h1 h2 hf0 hf1
    refine ⟨?_, ?_, ?_⟩ <;>
      simp [createChatCompletion, retryLoop, h0, h1, h2, hf0, hf1]

/-- Witness for C5's amended statement: a 401 followed by a 200 with a
cached token succeeds after exactly 2 attempts and 1 refresh. -/
theorem C5_retry_policy_witness :
    (createChatCompletion wGenv401 "m" (some "tok")).attempts = 2 ∧
    (createChatCompletion wGenv401 "m" (some "tok")).refreshes = 1 ∧
    (createChatCompletion wGenv401 "m" (some "tok")).attempts ≤ 3 := by
  have h := C5_retry_policy wGenv401 "m" "tok"
  have hsc := h.2.2.1 "expired" (JSVal.obj [("id", JSVal.str "r1")]) "tok2"
    rfl rfl rfl
  exact ⟨hsc.2.1, hsc.2.2, h.1⟩

/-- Counterexample to C5 as stated: three consecutive 401 responses
exhaust the budget after 3 attempts, but the call raises the Unauthorized
failure of the last attempt — not the definitive retry-exhausted
failure the claim promises on budget exhaustion (and the last 401
consumes the final budget unit without any refresh). -/
theorem C5_counterexample :
    (createChatCompletion wGenvAll401 "m" (some "t")).attempts = 3 ∧
    (createChatCompletion wGenvAll401 "m" (some "t")).refreshes = 2 ∧
    (createChatCompletion wGenvAll401 "m" (some "t")).outcome =
      .error (unauthorizedMsg "x") ∧
    unauthorizedMsg "x" ≠ "Max retries exceeded" := by
  refine ⟨by decide, by decide, rfl, by decide⟩

theorem execute_tokenUsage (env : StepEnv) (executionId : String) (wf : Workflow) :
    (execute env executionId wf).result.tokenUsage =
      env.gatewayUsages.foldl trackUsage TokenUsage.init := by
  cases hb : (executeBody env executionId wf).2.2 <;> simp [execute, hb]

theorem foldl_trackUsage_fields (usages : List Usage) (t : TokenUsage) :
    usages.foldl trackUsage t =
      ⟨t.promptTokens + (usages.map (fun u => u.prompt_tokens)).sum,
        t.completionTokens + (usages.map (fun u => u.completion_tokens)).sum,
        t.totalTokens + (usages.map (fun u => u.total_tokens)).sum,
        t.estimatedCost + (usages.map costOf).sum⟩ := by
  induction usages generalizing t with
  | nil => cases t; simp
  | cons u rest ih =>
    simp only [List.foldl_cons, List.map_cons, List.sum_cons, ih (trackUsage t u)]
    simp [trackUsage, costOf, TokenUsage.mk.injEq]
    refine ⟨by ring, by ring, by ring, by ring⟩

theorem tuLe_refl (t : TokenUsage) : tuLe t t :=
  ⟨le_refl _, le_refl _, le_refl _, le_refl _⟩

theorem tuLe_trans (a b c : TokenUsage) (h1 : tuLe a b) (h2 : tuLe b c) : tuLe a c :=
  ⟨le_trans h1.1 h2.1, le_trans h1.2.1 h2.2.1, le_trans h1.2.2.1 h2.2.2.1,
    le_trans h1.2.2.2 h2.2.2.2⟩

theorem costOf_nonneg (u : Usage) (h : usageNonneg u) : 0 ≤ costOf u := by
  obtain ⟨h1, h2, _⟩ := h
  have hp : (0 : ℚ) ≤ (u.prompt_tokens : ℚ) := by exact_mod_cast h1
  have hc : (0 : ℚ) ≤ (u.completion_tokens : ℚ) := by exact_mod_cast h2
  unfold costOf
  have e1 : (0 : ℚ) ≤ (u.prompt_tokens : ℚ) / 1000 * (3 / 100) :=
    mul_nonneg (div_nonneg hp (by norm_num)) (by norm_num)
  have e2 : (0 : ℚ) ≤ (u.completion_tokens : ℚ) / 1000 * (6 / 100) :=
    mul_nonneg (div_nonneg hc (by norm_num)) (by norm_num)
  linarith

theorem trackUsage_le (t : TokenUsage) (u : Usage) (h : usageNonneg u) :
    tuLe t (trackUsage t u) := by
  obtain ⟨h1, h2, h3⟩ := h
  have hcost := costOf_nonneg u ⟨h1, h2, h3⟩
  unfold costOf at hcost
  refine ⟨?_, ?_, ?_, ?_⟩ <;> simp [trackUsage] <;> linarith

theorem foldl_trackUsage_mono (usages : List Usage) (t : TokenUsage)
    (h : ∀ u ∈ usages, usageNonneg u) :
    tuLe t (usages.foldl trackUsage t) := by
  induction usages generalizing t with
  | nil => exact tuLe_refl t
  | cons u rest ih =>
    exact tuLe_trans _ _ _ (trackUsage_le t u (h u (by simp)))
      (by simpa using ih (trackUsage t u) fun x hx => h x (by simp [hx]))

/-- C7 (amended): the executor's final TokenUsage is the fold of the
gateway responses' normalized usage blocks: promptTokens = Σ pᵢ,
completionTokens = Σ cᵢ, estimatedCost = Σ (pᵢ/1000·0.03 + cᵢ/1000·0.06),
and totalTokens = Σ tᵢ of the **reported** totals (each defaulted to 0
when missing), which equals Σ (pᵢ + cᵢ) exactly when the gateway reports
consistent totals; with nonnegative reported counts every running-total
prefix is bounded by the final totals, so the totals never decrease
within the execution. -/
theorem C7_token_accounting (env : StepEnv) (executionId : String) (wf : Workflow)
    (usages : List Usage) (hu : env.gatewayUsages = usages) :
    (execute env executionId wf).result.tokenUsage =
      usages.foldl trackUsage TokenUsage.init ∧
    (usages.foldl trackUsage TokenUsage.init).promptTokens =
      (usages.map (fun u => u.prompt_tokens)).sum ∧
    (usages.foldl trackUsage TokenUsage.init).completionTokens =
      (usages.map (fun u => u.completion_tokens)).sum ∧
    (usages.foldl trackUsage TokenUsage.init).totalTokens =
      (usages.map (fun u => u.total_tokens)).sum ∧
    (usages.foldl trackUsage TokenUsage.init).estimatedCost =
      (usages.map costOf).sum ∧
    ((∀ u ∈ usages, u.total_tokens = u.prompt_tokens + u.completion_tokens) →
      (usages.foldl trackUsage TokenUsage.init).totalTokens =
        (usages.map (fun u => u.prompt_tokens + u.completion_tokens)).sum) ∧
    ((∀ u ∈ usages, usageNonneg u) → ∀ n,
      tuLe ((usages.take n).foldl trackUsage TokenUsage.init)
        (usages.foldl trackUsage TokenUsage.init)) := by
  have hf := foldl_trackUsage_fields usages TokenUsage.init
  refine ⟨by rw [execute_tokenUsage, hu], ?_, ?_, ?_, ?_, ?_, ?_⟩
  · rw [hf]; simp [TokenUsage.init]
  · rw [hf]; simp [TokenUsage.init]
  · rw [hf]; simp [TokenUsage.init]
  · rw [hf]; simp [TokenUsage.init]
  · intro hcons
    rw [hf]
    simp only [TokenUsage.init]
    have : usages.map (fun u => u.total_tokens) =
        usages.map fun u => u.prompt_tokens + u.completion_tokens :=
      List.map_congr_left fun u hu2 => hcons u hu2
    simp [this]
  · intro hnn n
    conv_rhs => rw [← List.take_append_drop n usages, List.foldl_append]
    exact foldl_trackUsage_mono (usages.drop n)
      ((usages.take n).foldl trackUsage TokenUsage.init)
      fun u hu2 => hnn u (List.drop_subset n usages hu2)

/-- Witness for C7's amended statement on two concrete usage blocks. -/
theorem C7_token_accounting_witness :
    (([⟨5, 7, 12⟩, ⟨10, 0, 10⟩] : List Usage).foldl trackUsage
        TokenUsage.init).totalTokens =
      (([⟨5, 7, 12⟩, ⟨10, 0, 10⟩] : List Usage).map
        (fun u => u.total_tokens)).sum :=
  (C7_token_accounting wEnv "e7"
    ⟨"w7", "W", [], "sequential"⟩ [⟨5, 7, 12⟩, ⟨10, 0, 10⟩]
    (by decide)).2.2.2.1

/-- Counterexample to C7 as stated: a 2xx response whose usage block
carries the counts (p, c) = (5, 7) but no total_tokens field is
normalized with `|| 0` to total_tokens = 0, so after this call the
executor's totalTokens is 0, not Σ (pᵢ + cᵢ) = 12: the code accumulates
the reported total, not p + c. -/
theorem C7_counterexample :
    usageOfData (JSVal.obj [("usage", JSVal.obj
        [("prompt_tokens", JSVal.num 5), ("completion_tokens", JSVal.num 7)])])
      = ⟨5, 7, 0⟩ ∧
    ([usageOfData (JSVal.obj [("usage", JSVal.obj
        [("prompt_tokens", JSVal.num 5), ("completion_tokens", JSVal.num 7)])])].foldl
      trackUsage TokenUsage.init).totalTokens = 0 ∧
    (0 : Int) ≠ 5 + 7 := by
  refine ⟨by decide, by decide, by decide⟩

theorem applyPersist_fields (e : ExecutionRec) (ls : List (List LogEntry)) :
    (applyUpdates e (ls.map persistLogsUpdate)).status = e.status ∧
    (applyUpdates e (ls.map persistLogsUpdate)).results = e.results ∧
    (applyUpdates e (ls.map persistLogsUpdate)).error = e.error ∧
    (applyUpdates e (ls.map persistLogsUpdate)).completedAt = e.completedAt ∧
    (applyUpdates e (ls.map persistLogsUpdate)).duration = e.duration ∧
    (applyUpdates e (ls.map persistLogsUpdate)).tokenUsage = e.tokenUsage := by
  induction ls generalizing e with
  | nil => simp [applyUpdates]
  | cons l rest ih =>
    have h2 := ih (updateExecution e (persistLogsUpdate l))
    simpa [applyUpdates, updateExecution, persistLogsUpdate] using h2

theorem updateExecution_persist_self (e : ExecutionRec) :
    updateExecution e (persistLogsUpdate e.logs) = e := by
  cases e
  rfl

theorem applyUpdates_persist_self (e : ExecutionRec) (n : Nat) :
    applyUpdates e (List.replicate n (persistLogsUpdate e.logs)) = e := by
  induction n with
  | zero => rfl
  | succ n ih =>
    simpa [applyUpdates, List.replicate_succ, updateExecution_persist_self]
      using ih

theorem updateExecution_terminal_logs (e : ExecutionRec) (r : ExecResult)
    (ca : String) :
    (updateExecution e (terminalUpdate r ca)).logs = r.logs := by
  cases h : isNullSentinel r.results <;>
    simp [terminalUpdate, updateExecution, h]

/-- C9: along every schedule the route can produce — the awaited running
update, fire-and-forget log persistences, the awaited terminal update,
then the late log persistences (which store the same live log array the
terminal update stored, its content final before `execute` resolved) —
the status follows queued → running → {completed, failed} per the
sentinel check, and the stored execution after the terminal update is
never changed again: every later update leaves the record exactly equal,
so no transition leaves a terminal state and no field — status, logs,
results, error, tokenUsage, timestamps — is ever mutated again. -/
theorem C9_terminal_immutability (mids : List (List LogEntry)) (n : Nat)
    (r : ExecResult) (ca : String) :
    createdExecution.status = "queued" ∧
    (applyUpdates createdExecution
        (runningUpdate :: mids.map persistLogsUpdate)).status = "running" ∧
    (updateExecution (applyUpdates createdExecution
        (runningUpdate :: mids.map persistLogsUpdate))
        (terminalUpdate r ca)).status = routeFinalStatus r ∧
    (routeFinalStatus r = "completed" ∨ routeFinalStatus r = "failed") ∧
    applyUpdates createdExecution (routeUpdateSeq mids r ca n) =
      updateExecution (applyUpdates createdExecution
        (runningUpdate :: mids.map persistLogsUpdate)) (terminalUpdate r ca) := by
  have hsplit : applyUpdates createdExecution (routeUpdateSeq mids r ca n) =
      applyUpdates (updateExecution (applyUpdates createdExecution
        (runningUpdate :: mids.map persistLogsUpdate)) (terminalUpdate r ca))
        (List.replicate n (persistLogsUpdate r.logs)) := by
    unfold routeUpdateSeq applyUpdates
    rw [show runningUpdate :: mids.map persistLogsUpdate ++
        terminalUpdate r ca :: List.replicate n (persistLogsUpdate r.logs) =
        (runningUpdate :: mids.map persistLogsUpdate ++ [terminalUpdate r ca]) ++
          List.replicate n (persistLogsUpdate r.logs) by simp]
    rw [List.foldl_append, List.foldl_append]
    rfl
  refine ⟨rfl, ?_, ?_, ?_, ?_⟩
  · have h2 := applyPersist_fields
      (updateExecution createdExecution runningUpdate) mids
    simpa [applyUpdates, updateExecution, runningUpdate] using h2.1
  · unfold terminalUpdate routeFinalStatus
    cases isNullSentinel r.results <;> simp [updateExecution]
  · unfold routeFinalStatus
    cases isNullSentinel r.results
    · exact Or.inl rfl
    · exact Or.inr rfl
  · rw [hsplit, ← updateExecution_terminal_logs (applyUpdates createdExecution
      (runningUpdate :: mids.map persistLogsUpdate)) r ca]
    exact applyUpdates_persist_self _ n

/-- Witness for C2: a two-step all-success sequential run aggregates the
canonical entries. -/
theorem C2_result_aggregation_witness :
    (execute wEnv "e2" ⟨"w2", "W", [wActStep, wExtractStep], "sequential"⟩).result.results =
      aggregateResults (canonicalEntries wEnv [wActStep, wExtractStep]) :=
  (C2_result_aggregation wEnv "e2" "w2" "W" [wActStep, wExtractStep]
    (by decide)).1 (by decide)

/-- C8: regardless of which stage failed (initialization, a step, or
nothing), every `execute` run performs the cleanup exactly once — the
session handle (assigned before `init()` is awaited) is closed exactly
once — and the cleanup entries are the final suffix of the emitted trace,
i.e. cleanup happens before `execute` returns, on every exit path. -/
theorem C8_cleanup_exactly_once (env : StepEnv) (executionId : String) (wf : Workflow) :
    (execute env executionId wf).closes = 1 ∧
    ∃ tr, (execute env executionId wf).trace =
      tr ++ (cleanup env true).1.map TraceItem.log := by
  have hh := executeBody_handle env executionId wf
  refine ⟨?_, ?_⟩
  · cases hbody : (executeBody env executionId wf).2.2 <;>
      simp [execute, hbody, hh, cleanup_closes]
  · cases hbody : (executeBody env executionId wf).2.2 with
    | error e =>
      refine ⟨TraceItem.log (startLog wf.name) ::
        ((executeBody env executionId wf).1 ++
          [TraceItem.log (workflowFailedLog e)]), ?_⟩
      simp [execute, hbody, hh]
    | ok entries =>
      refine ⟨TraceItem.log (startLog wf.name) ::
        (executeBody env executionId wf).1, ?_⟩
      simp [execute, hbody, hh]

end UiAuto
